import Mathlib

/-!
Verification development for the Expense-Tracker-App repository
(`src/Expense-Tracker-App-main/app.py`), a Flask expense-tracking
web application backed by a SQLite store.

Shallow embedding choices:
* The expense table is a `List Expense`; the user table a `List User`.
* SQLAlchemy amounts are Python floats; we embed them as `ℚ` (exact
  arithmetic).  Amount strings accepted by Python `float(...)` are modelled
  by a decimal/scientific-notation parser into `ℚ`; the non-finite spellings
  (`inf`, `nan`) and digit-group underscores have no rational meaning and are
  out of the model.
* `datetime.strptime(s, "%Y-%m-%d")` is embedded faithfully: exactly four
  year digits, one or two month/day digits, month in 1..12, day bounded by
  the (leap-aware) month length, year at least 1 (`datetime.MINYEAR`),
  and no unconverted trailing input.
* String processing is done on `List Char` with structural recursion so
  every definition evaluates on concrete input.
* `ORDER BY date DESC` guarantees only sortedness; we realise it with
  insertion sort on the descending-date relation.
* A request handler becomes a pure function from the store (and the request
  data) to the new store plus an outcome.  Uncommitted SQLAlchemy session
  mutations are rolled back at request teardown, so a handler that raises or
  returns before `db.session.commit()` leaves the stored table unchanged;
  the embedding therefore only changes the store on the commit paths.
-/

/-- A calendar date as produced by `datetime.strptime(s, "%Y-%m-%d").date()`. -/
structure Date where
  year : Nat
  month : Nat
  day : Nat
deriving DecidableEq, Repr

/-- Row of the `expense` table (`class Expense(db.Model)` in app.py). -/
structure Expense where
  id : Nat
  description : String
  amount : ℚ
  date : Date
  category : String
  user_id : Nat
deriving DecidableEq, Repr

/-- Row of the `user` table (`class User(db.Model, UserMixin)` in app.py). -/
structure User where
  id : Nat
  username : String
  password : String
deriving DecidableEq, Repr

/-- Date order used by the SQL comparisons `Expense.date >= ...` /
`Expense.date <= ...` and by `order_by(Expense.date.desc())`:
lexicographic on (year, month, day). -/
def Date.leB (a b : Date) : Bool :=
  decide (a.year < b.year) ||
    (decide (a.year = b.year) &&
      (decide (a.month < b.month) ||
        (decide (a.month = b.month) && decide (a.day ≤ b.day))))

/-- Numeric value of a digit string (already checked to be all digits). -/
def digitsToNat (cs : List Char) : Nat :=
  cs.foldl (fun a c => a * 10 + (c.toNat - 48)) 0

/-- Split a character list at every occurrence of `sep` (Python
`str.split(sep)` for a one-character separator, also the behaviour of the
split used to dissect `%Y-%m-%d` input). -/
def splitOn (sep : Char) : List Char → List (List Char)
  | [] => [[]]
  | c :: r =>
    if c = sep then [] :: splitOn sep r
    else
      match splitOn sep r with
      | [] => [[c]]
      | h :: t => (c :: h) :: t

/-- The whitespace stripped by Python `float(str)` before parsing. -/
def isPySpace (c : Char) : Bool :=
  c = ' ' || c = '\t' || c = '\n' || c = '\x0d' || c = '\x0b' || c = '\x0c'

/-- Python's surrounding-whitespace strip, on characters. -/
def stripChars (cs : List Char) : List Char :=
  ((cs.dropWhile isPySpace).reverse.dropWhile isPySpace).reverse

/-- Gregorian leap-year rule, as applied by Python's `datetime.date`. -/
def isLeap (y : Nat) : Bool :=
  (y % 4 == 0 && y % 100 != 0) || y % 400 == 0

/-- Number of days in a month, as validated by Python's `datetime.date`. -/
def daysInMonth (y m : Nat) : Nat :=
  if m = 2 then (if isLeap y then 29 else 28)
  else if m = 4 ∨ m = 6 ∨ m = 9 ∨ m = 11 then 30
  else 31

/-- `datetime.strptime(s, "%Y-%m-%d").date()`: `none` models the raised
`ValueError`.  CPython's `_strptime` matches `%Y` against exactly four
digits, `%m`/`%d` against one or two digits, rejects leftover input, and
the `datetime.date` constructor checks month/day ranges and `year >= 1`. -/
def parseDate (s : String) : Option Date :=
  match splitOn '-' s.toList with
  | [ys, ms, ds] =>
    if ys.length = 4 ∧ ys.all Char.isDigit ∧
       1 ≤ ms.length ∧ ms.length ≤ 2 ∧ ms.all Char.isDigit ∧
       1 ≤ ds.length ∧ ds.length ≤ 2 ∧ ds.all Char.isDigit then
      let y := digitsToNat ys
      let m := digitsToNat ms
      let d := digitsToNat ds
      if 1 ≤ y ∧ 1 ≤ m ∧ m ≤ 12 ∧ 1 ≤ d ∧ d ≤ daysInMonth y m then
        some ⟨y, m, d⟩
      else none
    else none
  | _ => none

/-- Python `float(s)` on finite decimal/scientific input, as an exact
rational: optional surrounding whitespace, optional sign, digits with an
optional fractional part (at least one digit overall), optional exponent.
`none` models the raised `ValueError`. -/
def parseAmount (s : String) : Option ℚ :=
  let cs := stripChars s.toList
  let (sgn, cs) : ℚ × List Char :=
    match cs with
    | '+' :: r => (1, r)
    | '-' :: r => (-1, r)
    | _ => (1, cs)
  let ipart := cs.takeWhile Char.isDigit
  let cs := cs.dropWhile Char.isDigit
  let (fpart, cs) : List Char × List Char :=
    match cs with
    | '.' :: r => (r.takeWhile Char.isDigit, r.dropWhile Char.isDigit)
    | _ => ([], cs)
  if ipart.isEmpty ∧ fpart.isEmpty then none
  else
    let mantissa : ℚ :=
      (digitsToNat ipart : ℚ) + (digitsToNat fpart : ℚ) / 10 ^ fpart.length
    match cs with
    | [] => some (sgn * mantissa)
    | c :: r =>
      if c = 'e' ∨ c = 'E' then
        let (esgn, r) : Int × List Char :=
          match r with
          | '+' :: r2 => (1, r2)
          | '-' :: r2 => (-1, r2)
          | _ => (1, r)
        let edigs := r.takeWhile Char.isDigit
        let r := r.dropWhile Char.isDigit
        if edigs.isEmpty ∨ ¬ r.isEmpty then none
        else some (sgn * mantissa * (10 : ℚ) ^ (esgn * (digitsToNat edigs : Int)))
      else none

/-- Fresh primary key for an insert (SQLite rowid autoincrement: larger than
every existing id). -/
def freshId (store : List Expense) : Nat :=
  store.foldr (fun e m => max e.id m) 0 + 1

/-- Outcome of the `/add` POST handler. -/
inductive AddOutcome
  | success
  | validationError
deriving DecidableEq, Repr

/-- `add_expense` POST handler (app.py lines 127-151): parses the date and
amount inside `try`; on failure it flashes an error and redirects with the
store untouched; on success it inserts one new row owned by the caller and
commits. -/
def add_expense (store : List Expense) (uid : Nat)
    (description amountStr dateStr category : String) :
    List Expense × AddOutcome :=
  match parseDate dateStr, parseAmount amountStr with
  | some d, some a =>
    (store ++ [{ id := freshId store, description := description, amount := a,
                 date := d, category := category, user_id := uid }],
     AddOutcome.success)
  | _, _ => (store, AddOutcome.validationError)

/-- Outcome of the `/edit/<id>` POST handler. -/
inductive EditOutcome
  | success
  | notFound
  | forbidden
  | validationError
  | internalError
deriving DecidableEq, Repr

/-- `edit_expense` POST handler (app.py lines 154-174).  `get_or_404`
becomes a `find?` on the primary key; the ownership check precedes the
mutation block.  In the source, `float(request.form['amount'])` sits
outside the `try`, so an unparsable amount raises an uncaught exception
(HTTP 500, `internalError` here); an unparsable date is caught and flashed
(`validationError`).  Either way `db.session.commit()` is never reached and
the session's dirty attributes are rolled back at request teardown, so the
stored row only changes on the success path, where all four fields are
written and committed together. -/
def edit_expense (store : List Expense) (callerId eid : Nat)
    (description amountStr dateStr category : String) :
    List Expense × EditOutcome :=
  match store.find? (fun x => x.id == eid) with
  | none => (store, EditOutcome.notFound)
  | some e =>
    if e.user_id ≠ callerId then (store, EditOutcome.forbidden)
    else
      match parseAmount amountStr with
      | none => (store, EditOutcome.internalError)
      | some a =>
        match parseDate dateStr with
        | none => (store, EditOutcome.validationError)
        | some d =>
          (store.map (fun x =>
             if x.id == eid then
               { x with description := description, amount := a,
                        date := d, category := category }
             else x),
           EditOutcome.success)

/-- Outcome of the `/delete/<id>` handler. -/
inductive DeleteOutcome
  | success
  | notFound
  | forbidden
deriving DecidableEq, Repr

/-- `delete_expense` handler (app.py lines 177-190): `get_or_404`, ownership
check, then delete-and-commit. -/
def delete_expense (store : List Expense) (callerId eid : Nat) :
    List Expense × DeleteOutcome :=
  match store.find? (fun x => x.id == eid) with
  | none => (store, DeleteOutcome.notFound)
  | some e =>
    if e.user_id ≠ callerId then (store, DeleteOutcome.forbidden)
    else (store.filter (fun x => ¬ x.id == eid), DeleteOutcome.success)

/-- The flashed warning for a bad `start_date` (app.py line 117). -/
def startWarning : String := "Invalid start date format. Use YYYY-MM-DD."

/-- The flashed warning for a bad `end_date` (app.py line 122). -/
def endWarning : String := "Invalid end date format. Use YYYY-MM-DD."

/-- The filter contributed by the `start_date` query parameter.
`request.args.get` yields `None` when absent; `if start_date:` is falsy for
both `None` and the empty string, so no filter and no warning in those
cases; a present, non-empty, unparsable value leaves the query unfiltered
(the `except` branch only flashes). -/
def startPred (start_date : Option String) (e : Expense) : Bool :=
  match start_date with
  | none => true
  | some s =>
    if s = "" then true
    else
      match parseDate s with
      | none => true
      | some d => Date.leB d e.date

/-- The filter contributed by the `end_date` query parameter (same truthiness
and error handling as `startPred`). -/
def endPred (end_date : Option String) (e : Expense) : Bool :=
  match end_date with
  | none => true
  | some s =>
    if s = "" then true
    else
      match parseDate s with
      | none => true
      | some d => Date.leB e.date d

/-- Whether the `start_date` parameter triggers the invalid-format flash. -/
def startInvalid (start_date : Option String) : Bool :=
  match start_date with
  | none => false
  | some s => ¬ s = "" && (parseDate s).isNone

/-- Whether the `end_date` parameter triggers the invalid-format flash. -/
def endInvalid (end_date : Option String) : Bool :=
  match end_date with
  | none => false
  | some s => ¬ s = "" && (parseDate s).isNone

/-- The descending-date order realising `order_by(Expense.date.desc())`. -/
def dateDesc (a b : Expense) : Prop := Date.leB b.date a.date = true

instance : DecidableRel dateDesc := fun _ _ =>
  inferInstanceAs (Decidable (_ = true))

/-- Result of the `/expenses` listing: the rendered rows and the flashed
warnings. -/
structure ListResult where
  rows : List Expense
  warnings : List String
deriving DecidableEq, Repr

/-- `expenses` handler (app.py lines 107-124): filter by the current user,
conditionally add each date bound, then `order_by(Expense.date.desc())`. -/
def expenses (store : List Expense) (uid : Nat)
    (start_date end_date : Option String) : ListResult :=
  let base := store.filter (fun e => e.user_id == uid)
  let afterStart := base.filter (startPred start_date)
  let afterEnd := afterStart.filter (endPred end_date)
  { rows := List.insertionSort dateDesc afterEnd
    warnings :=
      (if startInvalid start_date then [startWarning] else []) ++
        (if endInvalid end_date then [endWarning] else []) }

/-- Result of a login attempt: an established session or a flashed message. -/
inductive LoginResult
  | success (uid : Nat)
  | failure (message : String)
deriving DecidableEq, Repr

/-- `login` POST handler (app.py lines 80-92).  `check_password_hash` is an
external primitive, passed in abstractly as `checkHash hash password`.
`if user and check_password_hash(...)` has a single `else`, so the unknown-
username and wrong-password failures flash the same message. -/
def login (users : List User) (checkHash : String → String → Bool)
    (username password : String) : LoginResult :=
  match users.find? (fun u => u.username == username) with
  | some u =>
    if checkHash u.password password then LoginResult.success u.id
    else LoginResult.failure "Invalid username or password!"
  | none => LoginResult.failure "Invalid username or password!"

/-- A `GROUP BY key` / `SUM(amount)` query over a list of rows: one (key,
sum) pair per distinct key occurring in the rows.  SQL prescribes no group
ordering. -/
def groupSums {κ : Type} [DecidableEq κ] (key : Expense → κ)
    (l : List Expense) : List (κ × ℚ) :=
  (l.map key).dedup.map
    (fun k => (k, ((l.filter (fun e => key e = k)).map (fun e => e.amount)).sum))

/-- Pie-chart query of `dashboard` (app.py lines 200-202): the user's
expenses grouped by category with summed amounts. -/
def expense_data (store : List Expense) (uid : Nat) : List (String × ℚ) :=
  groupSums (fun e => e.category) (store.filter (fun e => e.user_id == uid))

/-- `values` in `dashboard` (app.py line 204): the per-category sums. -/
def categoryValues (store : List Expense) (uid : Nat) : List ℚ :=
  (expense_data store uid).map (fun p => p.2)

/-- Bar-chart query of `dashboard` (app.py lines 208-211): groups by
`strftime('%m', date)` — the month number alone, the year discarded. -/
def monthly_expenses (store : List Expense) (uid : Nat) : List (Nat × ℚ) :=
  groupSums (fun e => e.date.month) (store.filter (fun e => e.user_id == uid))

/-- `monthlyLabels` (app.py line 216): `calendar.month_abbr` for 1..12. -/
def monthlyLabels : List String :=
  ["Jan", "Feb", "Mar", "Apr", "May", "Jun",
   "Jul", "Aug", "Sep", "Oct", "Nov", "Dec"]

/-- `monthlyData` (app.py lines 215-217): `monthly_dict.get(i, 0)` for
`i in range(1, 13)` — the dict lookup becomes a `find?` on the grouped
pairs, with default 0. -/
def monthlyData (store : List Expense) (uid : Nat) : List ℚ :=
  (List.range 12).map
    (fun i =>
      (((monthly_expenses store uid).find? (fun p => p.1 == i + 1)).map
        (fun p => p.2)).getD 0)

/-- Decimal digits of a natural number. -/
def natChars (n : Nat) : List Char := Nat.toDigits 10 n

/-- Left-pad a numeral with zeros to the given width. -/
def padChars (w : Nat) (cs : List Char) : List Char :=
  List.replicate (w - cs.length) '0' ++ cs

/-- `date.strftime('%Y-%m-%d')` (app.py line 234): four-digit year,
two-digit month and day.  (For years below 1000 the platform `strftime`
may drop the year padding; `parseDate` only accepts four-digit years, so
dates round-tripping through the app render identically either way.) -/
def dateChars (d : Date) : List Char :=
  padChars 4 (natChars d.year) ++ '-' ::
    (padChars 2 (natChars d.month) ++ '-' :: padChars 2 (natChars d.day))

/-- Count and divide out the factors `p` of `d`: returns the cofactor and
the multiplicity.  The first argument after `p` is fuel (call with `d`). -/
def divCount (p : Nat) : Nat → Nat → Nat × Nat
  | d, 0 => (d, 0)
  | d, fuel + 1 =>
    if 2 ≤ p ∧ 0 < d ∧ d % p = 0 then
      let r := divCount p (d / p) fuel
      (r.1, r.2 + 1)
    else (d, 0)

/-- Python `str` of a float whose value is a terminating decimal, as
`csv.writer` renders the `amount` field: sign, integer part, then the
shortest decimal expansion (`str(3.5) == '3.5'`, `str(3.0) == '3.0'`).
Every amount produced by `parseAmount` is such a decimal.  (Python switches
to exponent notation for huge/tiny magnitudes, and a non-terminating
rational has no float counterpart; those fall to an unreachable fallback.) -/
def amountChars (q : ℚ) : List Char :=
  let sign : List Char := if q.num < 0 then ['-'] else []
  let n := q.num.natAbs
  let d := q.den
  let (d2, a) := divCount 2 d d
  let (d5, b) := divCount 5 d2 d2
  if d5 = 1 then
    let k := max a b
    if k = 0 then sign ++ natChars n ++ ['.', '0']
    else
      let digits := padChars (k + 1) (natChars (n * 10 ^ k / d))
      sign ++ digits.take (digits.length - k) ++ '.' :: digits.drop (digits.length - k)
  else sign ++ natChars n ++ '/' :: natChars d

/-- Double every quote character (the inner escaping of `csv.writer`). -/
def escapeQuotes : List Char → List Char
  | [] => []
  | c :: r => if c = '"' then '"' :: '"' :: escapeQuotes r else c :: escapeQuotes r

/-- Quoting rule of `csv.writer`'s default `excel` dialect (QUOTE_MINIMAL):
a field containing the delimiter, the quote char, or a line-break character
is wrapped in double quotes with inner quotes doubled. -/
def csvFieldChars (cs : List Char) : List Char :=
  if cs.any (fun c => c = ',' ∨ c = '"' ∨ c = '\n' ∨ c = '\x0d') then
    '"' :: (escapeQuotes cs ++ ['"'])
  else cs

/-- One `csv.writer.writerow`: comma-joined fields plus the dialect's
default line terminator CRLF. -/
def csvRowChars (fields : List (List Char)) : List Char :=
  List.intercalate [','] (fields.map csvFieldChars) ++ ['\x0d', '\n']

/-- The CSV cells written for one expense (app.py lines 233-238). -/
def expenseRow (e : Expense) : List Char :=
  csvRowChars [dateChars e.date, e.description.toList, e.category.toList,
               amountChars e.amount]

/-- The `export` handler (app.py lines 225-240; `export` is a Lean keyword,
hence the name): the user's expenses sorted by date descending, the header
row, then one row per expense, returned as the CSV text. -/
def exportCsv (store : List Expense) (uid : Nat) : String :=
  let es := List.insertionSort dateDesc (store.filter (fun e => e.user_id == uid))
  String.mk
    (csvRowChars [['D','a','t','e'],
                  "Description".toList, "Category".toList, "Amount".toList] ++
      (es.map expenseRow).flatten)

/-! ### Helper lemmas -/

theorem Date.leB_total (a b : Date) : a.leB b = true ∨ b.leB a = true := by
  simp only [Date.leB, Bool.or_eq_true, Bool.and_eq_true, decide_eq_true_eq]
  omega

theorem Date.leB_trans (a b c : Date) :
    a.leB b = true → b.leB c = true → a.leB c = true := by
  simp only [Date.leB, Bool.or_eq_true, Bool.and_eq_true, decide_eq_true_eq]
  omega

instance : IsTotal Expense dateDesc :=
  ⟨fun a b => (Date.leB_total b.date a.date).imp (fun h => h) (fun h => h)⟩

instance : IsTrans Expense dateDesc :=
  ⟨fun _ _ _ hab hbc => Date.leB_trans _ _ _ hbc hab⟩

theorem le_foldr_max (l : List Expense) :
    ∀ e ∈ l, e.id ≤ l.foldr (fun x m => max x.id m) 0 := by
  induction l with
  | nil => intro e he; cases he
  | cons a l ih =>
    intro e he
    rcases List.mem_cons.mp he with rfl | h
    · exact le_max_left _ _
    · exact le_trans (ih e h) (le_max_right _ _)

theorem id_lt_freshId (l : List Expense) (e : Expense) (he : e ∈ l) :
    e.id < freshId l :=
  Nat.lt_succ_of_le (le_foldr_max l e he)

theorem sum_map_single {κ : Type} [DecidableEq κ] (K : List κ) (hnd : K.Nodup)
    (k₀ : κ) (v : ℚ) (hk : k₀ ∈ K) :
    (K.map (fun k => if k₀ = k then v else 0)).sum = v := by
  induction K with
  | nil => cases hk
  | cons a K ih =>
    rcases List.mem_cons.mp hk with h | h
    · subst h
      simp only [List.map_cons, List.sum_cons, if_pos rfl]
      have hz : (K.map (fun k => if k₀ = k then v else 0)).sum = 0 := by
        apply List.sum_eq_zero
        intro x hx
        rcases List.mem_map.mp hx with ⟨k, hkK, rfl⟩
        have hne : k₀ ≠ k := fun h => (List.nodup_cons.mp hnd).1 (h ▸ hkK)
        simp [hne]
      rw [hz, add_zero]
      simp
    · have hne : k₀ ≠ a := fun heq => (List.nodup_cons.mp hnd).1 (heq ▸ h)
      simp only [List.map_cons, List.sum_cons, if_neg hne, zero_add]
      exact ih (List.nodup_cons.mp hnd).2 h

theorem bucket_sum {κ : Type} [DecidableEq κ] (key : Expense → κ) (K : List κ)
    (hnd : K.Nodup) :
    ∀ l : List Expense, (∀ e ∈ l, key e ∈ K) →
      (K.map (fun k =>
         ((l.filter (fun e => key e = k)).map (fun e => e.amount)).sum)).sum
        = (l.map (fun e => e.amount)).sum := by
  intro l
  induction l with
  | nil => intro _; simp
  | cons x l ih =>
    intro hcov
    have hx : key x ∈ K := hcov x (List.mem_cons_self x l)
    have hrec := ih (fun e he => hcov e (List.mem_cons_of_mem _ he))
    have step : ∀ k ∈ K,
        (((x :: l).filter (fun e => key e = k)).map (fun e => e.amount)).sum
          = (if key x = k then x.amount else 0) +
              ((l.filter (fun e => key e = k)).map (fun e => e.amount)).sum := by
      intro k _
      by_cases h : key x = k
      · simp [List.filter_cons, h]
      · simp [List.filter_cons, h]
    rw [List.map_congr_left step, List.sum_map_add,
        sum_map_single K hnd (key x) x.amount hx, hrec]
    simp

theorem groupSums_sum {κ : Type} [DecidableEq κ] (key : Expense → κ)
    (l : List Expense) :
    ((groupSums key l).map (fun p => p.2)).sum = (l.map (fun e => e.amount)).sum := by
  unfold groupSums
  rw [List.map_map]
  exact bucket_sum key _ (List.nodup_dedup _) l
    (fun e he => List.mem_dedup.mpr (List.mem_map.mpr ⟨e, he, rfl⟩))

theorem find?_map_pair {κ : Type} [DecidableEq κ] (K : List κ) (S : κ → ℚ)
    (k : κ) :
    (K.map (fun k2 => (k2, S k2))).find? (fun p => p.1 == k)
      = if k ∈ K then some (k, S k) else none := by
  induction K with
  | nil => simp
  | cons a K ih =>
    by_cases h : a = k
    · subst h
      rw [List.map_cons, List.find?_cons_of_pos _ (by simp)]
      simp
    · rw [List.map_cons, List.find?_cons_of_neg _ (by simp [h]), ih]
      by_cases hm : k ∈ K
      · simp [hm]
      · simp [hm, List.mem_cons, Ne.symm h]

theorem groupSums_find? {κ : Type} [DecidableEq κ] (key : Expense → κ)
    (l : List Expense) (k : κ) :
    (((groupSums key l).find? (fun p => p.1 == k)).map (fun p => p.2)).getD 0
      = ((l.filter (fun e => key e = k)).map (fun e => e.amount)).sum := by
  unfold groupSums
  rw [find?_map_pair]
  by_cases h : k ∈ (l.map key).dedup
  · simp [h]
  · have hnil : l.filter (fun e => key e = k) = [] := by
      rw [List.filter_eq_nil_iff]
      intro e he hk2
      exact h (List.mem_dedup.mpr (List.mem_map.mpr
        ⟨e, he, by simpa using hk2⟩))
    simp [h, hnil]

theorem listed_once (store : List Expense) (uid : Nat) (newE : Expense)
    (hid : newE.id = freshId store) (huid : newE.user_id = uid) :
    ((expenses (store ++ [newE]) uid none none).rows.filter
        (fun x => x.id == freshId store)).length = 1 := by
  have hrows : (expenses (store ++ [newE]) uid none none).rows
      = List.insertionSort dateDesc
          ((store ++ [newE]).filter (fun e => e.user_id == uid)) := by
    simp [expenses, startPred, endPred]
  rw [hrows]
  have hperm := (List.perm_insertionSort dateDesc
    ((store ++ [newE]).filter (fun e => e.user_id == uid))).filter
      (fun x => x.id == freshId store)
  rw [hperm.length_eq, List.filter_append, List.filter_append]
  have hold : (store.filter (fun e => e.user_id == uid)).filter
      (fun x => x.id == freshId store) = [] := by
    rw [List.filter_eq_nil_iff]
    intro x hx
    have hxs : x ∈ store := List.mem_of_mem_filter hx
    have hlt := id_lt_freshId store x hxs
    simp only [beq_iff_eq]
    omega
  have hnew : ([newE].filter (fun e => e.user_id == uid)).filter
      (fun x => x.id == freshId store) = [newE] := by
    simp [huid, hid]
  rw [hold, hnew]
  simp

/-! ### Demo data used by witnesses -/

/-- A concrete expense owned by user 7 (amounts as reduced rationals so every
field evaluates structurally). -/
def demoExpense : Expense :=
  { id := 1, description := "lunch", amount := ⟨5, 1, by decide, by decide⟩,
    date := ⟨2024, 1, 1⟩, category := "food", user_id := 7 }

/-- A one-row expense table. -/
def demoStore : List Expense := [demoExpense]

/-! ### Claim theorems -/

/-- C1: for every existing expense edited by its owner, `edit_expense`
applies the requested field updates atomically: when amount and date both
parse, all four fields are updated and committed; when the amount string
fails to parse (uncaught `ValueError`) or the date string fails to parse
(caught, flashed), the stored record is left exactly as it was. -/
theorem edit_expense_atomic (store : List Expense) (callerId eid : Nat)
    (descr amtStr dateStr cat : String) (e : Expense)
    (hfind : store.find? (fun x => x.id == eid) = some e)
    (hown : e.user_id = callerId) :
    match parseAmount amtStr, parseDate dateStr with
    | some a, some d =>
        edit_expense store callerId eid descr amtStr dateStr cat =
          (store.map (fun x =>
             if x.id == eid then
               { x with description := descr, amount := a, date := d,
                        category := cat }
             else x),
           EditOutcome.success)
    | none, _ =>
        edit_expense store callerId eid descr amtStr dateStr cat =
          (store, EditOutcome.internalError)
    | some _, none =>
        edit_expense store callerId eid descr amtStr dateStr cat =
          (store, EditOutcome.validationError) := by
  have hno : ¬ e.user_id ≠ callerId := by simp [hown]
  rcases hA : parseAmount amtStr with _ | a
  · simp [edit_expense, hfind, hA, hno]
  · rcases hD : parseDate dateStr with _ | d
    · simp [edit_expense, hfind, hA, hD, hno]
    · simp [edit_expense, hfind, hA, hD, hno]

/-- Witness for C1: a concrete owner edit with an unparsable date leaves the
store unchanged. -/
theorem edit_expense_atomic_witness :
    demoStore.find? (fun x => x.id == 1) = some demoExpense ∧
    demoExpense.user_id = 7 ∧
    edit_expense demoStore 7 1 "new" "5" "bad" "c" =
      (demoStore, EditOutcome.validationError) :=
  ⟨rfl, rfl, edit_expense_atomic demoStore 7 1 "new" "5" "bad" "c" demoExpense rfl rfl⟩

/-- C2: for every expense and every caller who is not its owner, both
`edit_expense` and `delete_expense` return `forbidden` and leave the store
completely unchanged; the ownership check precedes any mutation. -/
theorem non_owner_forbidden (store : List Expense) (callerId eid : Nat)
    (descr amtStr dateStr cat : String) (e : Expense)
    (hfind : store.find? (fun x => x.id == eid) = some e)
    (hown : e.user_id ≠ callerId) :
    edit_expense store callerId eid descr amtStr dateStr cat =
      (store, EditOutcome.forbidden) ∧
    delete_expense store callerId eid = (store, DeleteOutcome.forbidden) := by
  constructor
  · simp [edit_expense, hfind, hown]
  · simp [delete_expense, hfind, hown]

/-- Witness for C2: a concrete non-owner edit and delete are both refused. -/
theorem non_owner_forbidden_witness :
    demoStore.find? (fun x => x.id == 1) = some demoExpense ∧
    demoExpense.user_id ≠ 9 ∧
    edit_expense demoStore 9 1 "new" "5" "2024-01-01" "c" =
      (demoStore, EditOutcome.forbidden) ∧
    delete_expense demoStore 9 1 = (demoStore, DeleteOutcome.forbidden) :=
  ⟨rfl, by decide,
   (non_owner_forbidden demoStore 9 1 "new" "5" "2024-01-01" "c" demoExpense rfl
      (by decide)).1,
   (non_owner_forbidden demoStore 9 1 "new" "5" "2024-01-01" "c" demoExpense rfl
      (by decide)).2⟩

/-- C6: `add_expense` inserts exactly one new expense owned by the caller
when both amount and date parse, and a subsequent listing by that owner
contains exactly one record with the new id; when either fails to parse it
returns `validationError` and leaves the store unchanged. -/
theorem add_expense_spec (store : List Expense) (uid : Nat)
    (descr amtStr dateStr cat : String) :
    match parseDate dateStr, parseAmount amtStr with
    | some d, some a =>
        add_expense store uid descr amtStr dateStr cat =
          (store ++ [{ id := freshId store, description := descr, amount := a,
                       date := d, category := cat, user_id := uid }],
           AddOutcome.success) ∧
        ((expenses (add_expense store uid descr amtStr dateStr cat).1 uid
            none none).rows.filter (fun x => x.id == freshId store)).length = 1
    | _, _ =>
        add_expense store uid descr amtStr dateStr cat =
          (store, AddOutcome.validationError) := by
  rcases hD : parseDate dateStr with _ | d
  · rcases hA : parseAmount amtStr with _ | a <;> simp [add_expense, hD, hA]
  · rcases hA : parseAmount amtStr with _ | a
    · simp [add_expense, hD, hA]
    · have hadd : add_expense store uid descr amtStr dateStr cat =
          (store ++ [{ id := freshId store, description := descr, amount := a,
                       date := d, category := cat, user_id := uid }],
           AddOutcome.success) := by
        simp [add_expense, hD, hA]
      refine ⟨hadd, ?_⟩
      rw [hadd]
      exact listed_once store uid _ rfl rfl

/-- Witness for C6: the scenario add (desc "Coffee", amount "3.50",
date "2024-01-15", category "Food") yields exactly one listed record with
the fresh id. -/
theorem add_expense_spec_witness :
    ((expenses (add_expense [] 1 "Coffee" "3.50" "2024-01-15" "Food").1 1
        none none).rows.filter (fun x => x.id == freshId [])).length = 1 :=
  (add_expense_spec [] 1 "Coffee" "3.50" "2024-01-15" "Food").2

/-- A three-row table for exercising the listing (rows 1, 2 owned by user 1
with distinct dates; row 3 owned by user 2). -/
def demoStore2 : List Expense :=
  [{ id := 1, description := "a", amount := ⟨5, 1, by decide, by decide⟩,
     date := ⟨2024, 1, 1⟩, category := "food", user_id := 1 },
   { id := 2, description := "b", amount := ⟨6, 1, by decide, by decide⟩,
     date := ⟨2024, 3, 1⟩, category := "rent", user_id := 1 },
   { id := 3, description := "c", amount := ⟨7, 1, by decide, by decide⟩,
     date := ⟨2024, 2, 1⟩, category := "food", user_id := 2 }]

/-- C3: the listing returns exactly the owner's expenses passing both date
bounds, sorted by date descending; a syntactically invalid bound is dropped
from the filter (it constrains nothing) while its warning is flashed, and a
valid bound filters by date comparison. -/
theorem list_expenses_spec (store : List Expense) (uid : Nat)
    (sd ed : Option String) :
    (expenses store uid sd ed).rows.Perm
        (((store.filter (fun e => e.user_id == uid)).filter
            (startPred sd)).filter (endPred ed)) ∧
    (expenses store uid sd ed).rows.Pairwise dateDesc ∧
    (∀ e, e ∈ (expenses store uid sd ed).rows ↔
        e ∈ store ∧ e.user_id = uid ∧ startPred sd e = true ∧ endPred ed e = true) ∧
    (expenses store uid sd ed).warnings =
        (if startInvalid sd then [startWarning] else []) ++
          (if endInvalid ed then [endWarning] else []) ∧
    (startInvalid sd = true →
        startWarning ∈ (expenses store uid sd ed).warnings ∧
          ∀ e, startPred sd e = true) ∧
    (endInvalid ed = true →
        endWarning ∈ (expenses store uid sd ed).warnings ∧
          ∀ e, endPred ed e = true) ∧
    (∀ s d, sd = some s → parseDate s = some d →
        ∀ e, startPred sd e = Date.leB d e.date) ∧
    (∀ s d, ed = some s → parseDate s = some d →
        ∀ e, endPred ed e = Date.leB e.date d) := by
  have hrows : (expenses store uid sd ed).rows
      = List.insertionSort dateDesc
          (((store.filter (fun e => e.user_id == uid)).filter
              (startPred sd)).filter (endPred ed)) := rfl
  have hperm := List.perm_insertionSort dateDesc
    (((store.filter (fun e => e.user_id == uid)).filter
        (startPred sd)).filter (endPred ed))
  refine ⟨by rw [hrows]; exact hperm, ?_, ?_, rfl, ?_, ?_, ?_, ?_⟩
  · rw [hrows]
    exact List.sorted_insertionSort dateDesc _
  · intro e
    rw [hrows, (List.perm_insertionSort dateDesc _).mem_iff]
    simp only [List.mem_filter, beq_iff_eq]
    tauto
  · intro hinv
    constructor
    · rcases sd with _ | s
      · cases hinv
      · simp [expenses, hinv]
    · intro e
      rcases sd with _ | s
      · rfl
      · simp only [startInvalid, Bool.and_eq_true, decide_eq_true_eq,
          Option.isNone_iff_eq_none] at hinv
        simp [startPred, hinv.1, hinv.2]
  · intro hinv
    constructor
    · rcases ed with _ | s
      · cases hinv
      · simp [expenses, hinv]
    · intro e
      rcases ed with _ | s
      · rfl
      · simp only [endInvalid, Bool.and_eq_true, decide_eq_true_eq,
          Option.isNone_iff_eq_none] at hinv
        simp [endPred, hinv.1, hinv.2]
  · rintro s d rfl hd e
    have hne : s ≠ "" := by
      rintro rfl
      cases hd
    simp [startPred, hne, hd]
  · rintro s d rfl hd e
    have hne : s ≠ "" := by
      rintro rfl
      cases hd
    simp [endPred, hne, hd]

/-- Witness for C3: with an invalid start bound and a valid end bound the
listing still executes (rows 1 of user 1, dated on/before 2024-02-01, date
descending) and flashes exactly the start warning. -/
theorem list_expenses_spec_witness :
    (expenses demoStore2 1 (some "junk") (some "2024-02-01")).rows.Pairwise dateDesc ∧
    (expenses demoStore2 1 (some "junk") (some "2024-02-01")).warnings =
      [startWarning] := by
  have h := list_expenses_spec demoStore2 1 (some "junk") (some "2024-02-01")
  exact ⟨h.2.1, by rw [h.2.2.2.1]; rfl⟩

/-- C10: an empty-string date bound behaves exactly as an absent one — same
rows, no filter, and no invalid-format warning. -/
theorem empty_bound_ignored (store : List Expense) (uid : Nat)
    (sd ed : Option String) :
    expenses store uid (some "") ed = expenses store uid none ed ∧
    expenses store uid sd (some "") = expenses store uid sd none ∧
    (expenses store uid (some "") (some "")).warnings = [] := by
  have hs : startPred (some "") = startPred none := by
    funext e
    rfl
  have he : endPred (some "") = endPred none := by
    funext e
    rfl
  refine ⟨?_, ?_, rfl⟩
  · simp only [expenses, hs]
    rfl
  · simp only [expenses, he]
    rfl

/-- The spec scenario's store: 10 on 2023-03-01 and 20 on 2024-03-10, both
owned by user 1. -/
def demoMarchStore : List Expense :=
  [{ id := 1, description := "a", amount := ⟨10, 1, by decide, by decide⟩,
     date := ⟨2023, 3, 1⟩, category := "Food", user_id := 1 },
   { id := 2, description := "b", amount := ⟨20, 1, by decide, by decide⟩,
     date := ⟨2024, 3, 10⟩, category := "Rent", user_id := 1 }]

/-- C4: `monthlyData` has one entry for each of the 12 calendar months in
calendar order, and entry `i` is the sum of the owner's expense amounts
whose date falls in month `i + 1` regardless of year; a month with no
expenses contributes the empty sum 0. -/
theorem monthly_totals_complete (store : List Expense) (uid : Nat) :
    monthlyLabels = ["Jan", "Feb", "Mar", "Apr", "May", "Jun",
                     "Jul", "Aug", "Sep", "Oct", "Nov", "Dec"] ∧
    (monthlyData store uid).length = 12 ∧
    ∀ i, i < 12 →
      (monthlyData store uid).getD i 0 =
        (((store.filter (fun e => e.user_id == uid)).filter
            (fun e => e.date.month = i + 1)).map (fun e => e.amount)).sum := by
  refine ⟨rfl, by simp [monthlyData], ?_⟩
  intro i hi
  have hidx : (monthlyData store uid).getD i 0 =
      (((monthly_expenses store uid).find? (fun p => p.1 == i + 1)).map
        (fun p => p.2)).getD 0 := by
    simp [monthlyData, List.getD_eq_getElem?_getD, List.getElem?_map,
      List.getElem?_range, hi]
  rw [hidx]
  unfold monthly_expenses
  exact groupSums_find? _ _ _

/-- Witness for C4: in the spec scenario the March slot (index 2) equals the
sum over the owner's March expenses. -/
theorem monthly_totals_complete_witness :
    2 < 12 ∧
    (monthlyData demoMarchStore 1).getD 2 0 =
      (((demoMarchStore.filter (fun e => e.user_id == 1)).filter
          (fun e => e.date.month = 2 + 1)).map (fun e => e.amount)).sum :=
  ⟨by decide, (monthly_totals_complete demoMarchStore 1).2.2 2 (by decide)⟩

/-- The owner's stored months all lie in 1..12 (true of every date accepted
by `parseDate`; an arbitrary `List Expense` needs the assumption). -/
def monthsValid (store : List Expense) (uid : Nat) : Prop :=
  ∀ e ∈ store, e.user_id = uid → 1 ≤ e.date.month ∧ e.date.month ≤ 12

instance (store : List Expense) (uid : Nat) : Decidable (monthsValid store uid) := by
  unfold monthsValid
  infer_instance

/-- C5: `monthlyData` always has exactly 12 entries, and its total equals
the total of the per-category sums — both equal the grand total of the
owner's expense amounts. -/
theorem monthly_category_grand_total (store : List Expense) (uid : Nat)
    (h : monthsValid store uid) :
    (monthlyData store uid).length = 12 ∧
    (monthlyData store uid).sum = (categoryValues store uid).sum ∧
    (categoryValues store uid).sum =
      ((store.filter (fun e => e.user_id == uid)).map (fun e => e.amount)).sum := by
  have hcat : (categoryValues store uid).sum =
      ((store.filter (fun e => e.user_id == uid)).map (fun e => e.amount)).sum := by
    unfold categoryValues expense_data
    exact groupSums_sum _ _
  refine ⟨by simp [monthlyData], ?_, hcat⟩
  rw [hcat]
  have hentry : ∀ i ∈ List.range 12,
      (((monthly_expenses store uid).find? (fun p => p.1 == i + 1)).map
        (fun p => p.2)).getD 0 =
        (((store.filter (fun e => e.user_id == uid)).filter
            (fun e => e.date.month = i + 1)).map (fun e => e.amount)).sum := by
    intro i _
    unfold monthly_expenses
    exact groupSums_find? _ _ _
  unfold monthlyData
  rw [List.map_congr_left hentry]
  have hmm : (((List.range 12).map (fun i => i + 1)).map
      (fun m => (((store.filter (fun e => e.user_id == uid)).filter
          (fun e => e.date.month = m)).map (fun e => e.amount)).sum))
      = (List.range 12).map
        (fun i => (((store.filter (fun e => e.user_id == uid)).filter
            (fun e => e.date.month = i + 1)).map (fun e => e.amount)).sum) := by
    rw [List.map_map]
    rfl
  rw [← hmm]
  apply bucket_sum (fun e => e.date.month) ((List.range 12).map (fun i => i + 1))
  · exact (List.nodup_range 12).map (fun a b hab => by omega)
  · intro e he
    rcases List.mem_filter.mp he with ⟨hes, heu⟩
    have hb := h e hes (by simpa using heu)
    simp only [List.mem_map, List.mem_range]
    exact ⟨e.date.month - 1, by omega, by omega⟩

/-- Witness for C5: the spec scenario satisfies the month-validity side
condition and the two dashboard totals agree. -/
theorem monthly_category_grand_total_witness :
    monthsValid demoMarchStore 1 ∧
    (monthlyData demoMarchStore 1).length = 12 ∧
    (monthlyData demoMarchStore 1).sum = (categoryValues demoMarchStore 1).sum :=
  ⟨by decide, (monthly_category_grand_total demoMarchStore 1 (by decide)).1,
   (monthly_category_grand_total demoMarchStore 1 (by decide)).2.1⟩

/-- A one-row user table. -/
def demoUsers : List User := [{ id := 1, username := "bob", password := "hash" }]

/-- C8: a login with an unknown username and a login with a known username
but a failing password check produce the identical `InvalidCredentials`
failure, for every user table and every hash checker — the response does
not reveal whether the username exists. -/
theorem login_no_username_enumeration (users : List User)
    (checkHash : String → String → Bool) (u1 p1 u2 p2 : String) (u : User)
    (h1 : users.find? (fun x => x.username == u1) = none)
    (h2 : users.find? (fun x => x.username == u2) = some u)
    (h3 : checkHash u.password p2 = false) :
    login users checkHash u1 p1 =
      LoginResult.failure "Invalid username or password!" ∧
    login users checkHash u2 p2 =
      LoginResult.failure "Invalid username or password!" ∧
    login users checkHash u1 p1 = login users checkHash u2 p2 := by
  have ha : login users checkHash u1 p1 =
      LoginResult.failure "Invalid username or password!" := by
    simp [login, h1]
  have hb : login users checkHash u2 p2 =
      LoginResult.failure "Invalid username or password!" := by
    simp [login, h2, h3]
  exact ⟨ha, hb, ha.trans hb.symm⟩

/-- Witness for C8: "alice" (unknown) and "bob" (known, wrong password) get
the same response. -/
theorem login_no_username_enumeration_witness :
    demoUsers.find? (fun x => x.username == "alice") = none ∧
    demoUsers.find? (fun x => x.username == "bob") =
      some { id := 1, username := "bob", password := "hash" } ∧
    login demoUsers (fun _ _ => false) "alice" "pw" =
      login demoUsers (fun _ _ => false) "bob" "pw" :=
  ⟨rfl, rfl,
   (login_no_username_enumeration demoUsers (fun _ _ => false) "alice" "pw"
      "bob" "pw" { id := 1, username := "bob", password := "hash" }
      rfl rfl rfl).2.2⟩

/-- Counterexample to C9: `add_expense` happily stores an expense whose
description is the empty string — the handler never validates
non-emptiness. -/
theorem add_expense_empty_description_counterexample :
    (add_expense [] 1 "" "3.5" "2024-01-15" "Food").2 = AddOutcome.success ∧
    (add_expense [] 1 "" "3.5" "2024-01-15" "Food").1.map
      (fun e => e.description) = [""] :=
  ⟨rfl, rfl⟩

/-- C9 (amended): descriptions are stored verbatim — `add_expense` appends a
record carrying exactly the submitted description and `edit_expense`
overwrites the target's description with exactly the submitted one,
including the empty string; no non-emptiness validation happens. -/
theorem description_stored_verbatim (store : List Expense) (uid : Nat)
    (descr amtStr dateStr cat : String) (a : ℚ) (d : Date)
    (hA : parseAmount amtStr = some a) (hD : parseDate dateStr = some d) :
    ((add_expense store uid descr amtStr dateStr cat).1.map
        (fun e => e.description) = store.map (fun e => e.description) ++ [descr]) ∧
    (∀ callerId eid e, store.find? (fun x => x.id == eid) = some e →
        e.user_id = callerId →
        (edit_expense store callerId eid descr amtStr dateStr cat).1.map
            (fun x => x.description)
          = store.map (fun x => if x.id == eid then descr else x.description)) := by
  constructor
  · simp [add_expense, hA, hD]
  · intro callerId eid e hfind hown
    have hno : ¬ e.user_id ≠ callerId := by simp [hown]
    simp only [edit_expense, hfind]
    rw [if_neg hno]
    simp only [hA, hD]
    rw [List.map_map]
    apply List.map_congr_left
    intro x _
    by_cases hx : x.id = eid
    · simp [hx]
    · simp [hx]

/-- Witness for C9 (amended): adding with an empty description stores the
empty description verbatim. -/
theorem description_stored_verbatim_witness :
    (add_expense demoStore 7 "" "5" "2024-01-15" "Food").1.map
        (fun e => e.description)
      = demoStore.map (fun e => e.description) ++ [""] :=
  (description_stored_verbatim demoStore 7 "" "5" "2024-01-15" "Food" _ _
    rfl rfl).1

/-- The exact rational 3.5, as a reduced fraction. -/
def coffeeAmount : ℚ := ⟨7, 2, by decide, by decide⟩

/-- The store after the spec scenario's single add: one "Coffee" expense of
3.5 on 2024-01-15 in category "Food", owned by user 1. -/
def coffeeStore : List Expense :=
  [{ id := 1, description := "Coffee", amount := coffeeAmount,
     date := ⟨2024, 1, 15⟩, category := "Food", user_id := 1 }]

theorem add_coffee_eq :
    add_expense [] 1 "Coffee" "3.50" "2024-01-15" "Food" =
      (coffeeStore, AddOutcome.success) := by
  have h0 : parseAmount "3.50" =
      some ((1 : ℚ) * (((3 : ℕ) : ℚ) + ((50 : ℕ) : ℚ) / 10 ^ (2 : ℕ))) := rfl
  have hval : ((1 : ℚ) * (((3 : ℕ) : ℚ) + ((50 : ℕ) : ℚ) / 10 ^ (2 : ℕ)))
      = coffeeAmount := by
    rw [show coffeeAmount = ((7 : ℚ) / 2) by
      rw [coffeeAmount, Rat.mk'_eq_divInt, Rat.divInt_eq_div]
      norm_num]
    push_cast
    norm_num
  have h1 : parseAmount "3.50" = some coffeeAmount := by rw [h0, hval]
  unfold add_expense
  rw [show parseDate "2024-01-15" = some ⟨2024, 1, 15⟩ from rfl, h1]
  rfl

/-- Counterexample to C7: the scenario's CSV export is not the claimed
string with bare LF line endings (the `csv` module's default dialect
terminates rows with CRLF). -/
theorem export_csv_lf_counterexample :
    exportCsv (add_expense [] 1 "Coffee" "3.50" "2024-01-15" "Food").1 1 ≠
      "Date,Description,Category,Amount\n2024-01-15,Coffee,Food,3.5\n" := by
  rw [add_coffee_eq]
  decide

/-- C7 (amended): the export is the header row followed by one CSV row per
expense of the owner, sorted by date descending — with CRLF (the csv
module's default) terminating each row; the spec scenario produces exactly
`Date,Description,Category,Amount\r\n2024-01-15,Coffee,Food,3.5\r\n`. -/
theorem export_csv_spec :
    (∀ store uid, ∃ l : List Expense,
        l.Perm (store.filter (fun e => e.user_id == uid)) ∧
        l.Pairwise dateDesc ∧
        exportCsv store uid =
          "Date,Description,Category,Amount\r\n" ++
            String.mk ((l.map expenseRow).flatten)) ∧
    exportCsv (add_expense [] 1 "Coffee" "3.50" "2024-01-15" "Food").1 1 =
      "Date,Description,Category,Amount\r\n2024-01-15,Coffee,Food,3.5\r\n" := by
  constructor
  · intro store uid
    exact ⟨List.insertionSort dateDesc
        (store.filter (fun e => e.user_id == uid)),
      List.perm_insertionSort _ _, List.sorted_insertionSort _ _, rfl⟩
  · rw [add_coffee_eq]
    rfl
